import Mathlib

/-!
Shallow embedding of the SpheremapTool reprojection engine (src/main.cpp) and
proofs of the specification claims about it.

Modelling conventions: C float arithmetic is embedded over a linear ordered
field (instantiated at the rationals for executable checks and at the reals
where the square root is needed); 32-bit unsigned integer arithmetic is
embedded over the naturals with explicit shifts, masks and truncating
division; C int values that can be negative are embedded as integers.
-/

namespace SpheremapTool

/-! ### Color packing, main.cpp lines 119 to 127 -/

/-- Embedding of the C function makeColor: the expression
r OR (g shifted left by 8) OR (b shifted left by 16) OR (255 shifted left
by 24), where r, g, b are byte values below 256. -/
def makeColor (r g b : ℕ) : ℕ :=
  r ||| g <<< 8 ||| b <<< 16 ||| 255 <<< 24

/-- Embedding of the C function splitColor: extracts the three low bytes of a
packed color, in the order red, green, blue. -/
def splitColor (col : ℕ) : ℕ × ℕ × ℕ :=
  (col >>> 0 &&& 0xFF, col >>> 8 &&& 0xFF, col >>> 16 &&& 0xFF)

/-! ### Cubemap direction resolution, main.cpp lines 71 to 103

The float arithmetic of computeTexCoords is embedded generically over a
linear ordered field, so the same definition serves both the rationals (for
executable checks) and the reals (for composition with the projector). -/

variable {K : Type} [LinearOrderedField K]

/-- The signed component array v of main.cpp line 74. -/
def vecComp (x y z : K) : ℕ → K
  | 0 => x
  | 1 => y
  | _ => z

/-- The absolute component array a of main.cpp line 75. -/
def vecAbs (x y z : K) : ℕ → K
  | 0 => |x|
  | 1 => |y|
  | _ => |z|

/-- The major axis selection of main.cpp lines 77 to 83: the first axis, in
the order 0, 1, 2, whose absolute component is at least both others. The
final branch of the C code tests the remaining condition explicitly and
leaves the variable unset when it fails; over an ordered field that
condition always holds when the first two fail, so it is the final else
here. -/
def majorAxis (x y z : K) : ℕ :=
  if |x| ≥ |y| ∧ |x| ≥ |z| then 0
  else if |y| ≥ |x| ∧ |y| ≥ |z| then 1
  else 2

/-- The face code of main.cpp lines 85 to 88: twice the axis, plus one when
the signed component along the major axis is negative. -/
def faceIndex (x y z : K) : ℕ :=
  if vecComp x y z (majorAxis x y z) < 0 then 2 * majorAxis x y z + 1
  else 2 * majorAxis x y z

/-- The per-face switch of main.cpp lines 90 to 98, giving
(tmp_s, tmp_t, m) for each face code. -/
def faceVals (x y z : K) : ℕ → K × K × K
  | 0 => (-z, -y, |x|)
  | 1 => (z, -y, |x|)
  | 2 => (x, z, |y|)
  | 3 => (x, -z, |y|)
  | 4 => (x, -y, |z|)
  | _ => (-x, -y, |z|)

/-- Embedding of Cubemap::computeTexCoords, main.cpp lines 71 to 103:
returns the face code together with the texture coordinates
s = 0.5 * (tmp_s / m + 1) and t = 0.5 * (tmp_t / m + 1). -/
def computeTexCoords (x y z : K) : ℕ × K × K :=
  let f := faceIndex x y z
  let w := faceVals x y z f
  (f, 1 / 2 * (w.1 / w.2.2 + 1), 1 / 2 * (w.2.1 / w.2.2 + 1))

/-- The divisor m used by computeTexCoords. -/
def majorM (x y z : K) : K :=
  (faceVals x y z (faceIndex x y z)).2.2

/-! ### Projector, main.cpp lines 237 to 248

The per-subsample direction computation from the main loop, embedded over
the reals because it takes a square root. -/

/-- Embedding of the projector step of the main loop: from normalized
coordinates s and t it computes rev_p = 16 * (s - s*s + t - t*t) - 4 and
returns the back pole (0, 0, -1) when rev_p is negative, otherwise the
direction built from the square root of rev_p. -/
noncomputable def projDir (s t : ℝ) : ℝ × ℝ × ℝ :=
  let rev_p := 16 * (s - s * s + t - t * t) - 4
  if rev_p < 0 then (0, 0, -1)
  else
    let rev_p_sqrt := Real.sqrt rev_p
    (rev_p_sqrt * (2 * s - 1), rev_p_sqrt * -(2 * t - 1),
      8 * (s - s * s + t - t * t) - 3)

/-- Modelled on the claim text for the projector: p = 16*(s - s^2 + t - t^2)
minus 4; if p is negative the result is (0, 0, -1), otherwise
(sqrt p * (2s - 1), -(sqrt p * (2t - 1)), 8*(s - s^2 + t - t^2) - 3). -/
noncomputable def projDirSpec (s t : ℝ) : ℝ × ℝ × ℝ :=
  let p := 16 * (s - s ^ 2 + t - t ^ 2) - 4
  if p < 0 then (0, 0, -1)
  else (Real.sqrt p * (2 * s - 1), -(Real.sqrt p * (2 * t - 1)),
    8 * (s - s ^ 2 + t - t ^ 2) - 3)

/-! ### Face images, texel reads and point sampling, main.cpp lines 17 to 112

An Image carries the C int width and height and an optional pixel buffer;
a buffer value of none models the null pointer produced by a failed
stbi_load. The buffer is a total map from the flat index used by the C code
to a 32-bit texel value. -/

/-- Embedding of the Image record of main.cpp lines 17 to 39. -/
structure Image where
  width : ℤ
  height : ℤ
  data : Option (ℤ → ℕ)

/-- Outcome of a texel read: a color value, a tripped assertion, or a
dereference of a null pixel buffer. -/
inductive TexelResult
  | ok (color : ℕ)
  | assertFail
  | nullDeref
  deriving DecidableEq

/-- Embedding of Cubemap::readTexel, main.cpp lines 60 to 69: asserts that
the face index is below six and that x and y are strictly below the face
width and height, then reads the buffer at flat index y * width + x. The C
code holds exactly these three assertions; no lower bounds are checked. -/
def readTexel (faces : ℕ → Image) (face : ℕ) (x y : ℤ) : TexelResult :=
  if ¬(face < 6) then .assertFail
  else if ¬(x < (faces face).width) then .assertFail
  else if ¬(y < (faces face).height) then .assertFail
  else
    match (faces face).data with
    | none => .nullDeref
    | some buf => .ok (buf (y * (faces face).width + x))

/-- The C cast from float to int: truncation toward zero. -/
def cTrunc (q : ℚ) : ℤ := if 0 ≤ q then ⌊q⌋ else ⌈q⌉

/-- Embedding of Cubemap::sampleFace, main.cpp lines 105 to 112: point
sampling; maps s and t to integer texel coordinates
min(int(s * width), width - 1) and min(int(t * height), height - 1), then
calls readTexel. -/
def sampleFace (faces : ℕ → Image) (face : ℕ) (s t : ℚ) : TexelResult :=
  let img := faces face
  let x := min (cTrunc (s * img.width)) (img.width - 1)
  let y := min (cTrunc (t * img.height)) (img.height - 1)
  readTexel faces face x y

/-- Filename suffix per cube face, main.cpp lines 52 to 57. -/
def faceSuffix : ℕ → String
  | 0 => "right"
  | 1 => "left"
  | 2 => "top"
  | 3 => "bottom"
  | 4 => "front"
  | _ => "back"

/-- Embedding of the Image constructor from a filename, main.cpp lines 25 to
27: it stores whatever the decoder produced and performs no check. When the
decode fails the data pointer is null and the dimensions are whatever the
decoder left behind, modelled by the junkW and junkH parameters. -/
def imageFromFile (decode : String → Option (ℤ × ℤ × (ℤ → ℕ)))
    (junkW junkH : ℤ) (filename : String) : Image :=
  match decode filename with
  | some (w, h, buf) => ⟨w, h, some buf⟩
  | none => ⟨junkW, junkH, none⟩

/-- Embedding of the Cubemap constructor, main.cpp lines 51 to 58: loads the
six face images and performs no error checking; it cannot fail. -/
def cubemapFromFiles (decode : String → Option (ℤ × ℤ × (ℤ → ℕ)))
    (junkW junkH : ℤ) (base ext : String) : ℕ → Image :=
  fun face =>
    imageFromFile decode junkW junkH (base ++ "_" ++ faceSuffix face ++ "." ++ ext)

/-! ### AA sampler and rasterizer, main.cpp lines 115 to 117, 151 to 158 and
226 to 266 -/

/-- Embedding of unlerp, main.cpp lines 115 to 117: pixel center in
normalized coordinates. -/
def unlerp (val maxVal : ℤ) : ℚ := ((val : ℚ) + 1 / 2) / (maxVal : ℚ)

/-- The one-sample pattern aa_pattern_none, main.cpp line 151. -/
def aa_pattern_none : List (ℚ × ℚ) := [(0, 0)]

/-- The five-sample rotated-grid pattern aa_pattern_5x, main.cpp lines 152
to 158. -/
def aa_pattern_5x : List (ℚ × ℚ) :=
  [(0, 0), (-0.1875, -0.375), (0.375, -0.1875), (0.1875, 0.375), (-0.375, 0.1875)]

/-- The per-pixel accumulation loop of main.cpp lines 233 to 260, with the
projector-and-cubemap sampling chain abstracted as the function sample,
which returns the three splitColor channels of the sampled color at the
given subsample coordinates. Returns the three channel sums. -/
def accumSamples (sample : ℚ → ℚ → ℕ × ℕ × ℕ) (cs ct ps : ℚ) :
    List (ℚ × ℚ) → ℕ × ℕ × ℕ
  | [] => (0, 0, 0)
  | off :: rest =>
    let c := sample (cs + off.1 * ps) (ct + off.2 * ps)
    let acc := accumSamples sample cs ct ps rest
    (c.1 + acc.1, c.2.1 + acc.2.1, c.2.2 + acc.2.2)

/-- The per-pixel work of the rasterizer loop, main.cpp lines 226 to 266:
accumulate the channel sums over the subsample pattern, divide each by the
sample count with truncating natural division, and pack the result. The
mod 256 reflects the implicit C conversion from u32 to the u8 arguments of
makeColor. -/
def rasterPixel (sample : ℚ → ℚ → ℕ × ℕ × ℕ) (N px py : ℤ)
    (pattern : List (ℚ × ℚ)) : ℕ :=
  let cs := unlerp px N
  let ct := unlerp py N
  let ps := 1 / (N : ℚ)
  let acc := accumSamples sample cs ct ps pattern
  let k := pattern.length
  makeColor (acc.1 / k % 256) (acc.2.1 / k % 256) (acc.2.2 / k % 256)

/-! ### Command-line option parsing, main.cpp lines 160 to 218

The std::stoi collaborator is a parameter; a result of none models the
exception it throws on a malformed argument, which the C code does not
catch. Popping an argument from an empty list is likewise undefined
behaviour in the C code and is modelled as a crash. -/

/-- Outcome of argument processing. -/
inductive ParseOutcome
  | ok (numAA : ℤ) (size : ℤ) (outName : Option String) (pos : List String)
  | exitFail
  | exitOk
  | crash
  deriving DecidableEq

/-- The dash character, code point 45. -/
def dashChar : Char := Char.ofNat 45

/-- The C test of main.cpp line 178: the option string is nonempty and its
first character is a dash. -/
def startsWithDash (s : String) : Bool :=
  match s.data with
  | [] => false
  | c :: _ => c = dashChar

/-- Embedding of the option loop of main.cpp lines 175 to 207, carrying the
running option state. The "-aa" branch rejects every value other than 1 and
5 with a message and exit code 1; the "-size" branch stores the parsed
value without any validation; "-h" and "-help" print usage and exit 0; an
unknown dash option exits 1; a bare "-" moves the remaining arguments to
the positional list; anything else is a positional argument. -/
def parseLoop (stoi : String → Option ℤ) :
    List String → ℤ → ℤ → Option String → List String → ParseOutcome
  | [], aa, size, out, pos => .ok aa size out pos
  | opt :: rest, aa, size, out, pos =>
    if startsWithDash opt then
      if opt = "-" then .ok aa size out (pos ++ rest)
      else if opt = "-aa" then
        match rest with
        | [] => .crash
        | arg :: rest2 =>
          match stoi arg with
          | none => .crash
          | some v =>
            if v = 1 ∨ v = 5 then parseLoop stoi rest2 v size out pos
            else .exitFail
      else if opt = "-size" then
        match rest with
        | [] => .crash
        | arg :: rest2 =>
          match stoi arg with
          | none => .crash
          | some v => parseLoop stoi rest2 aa v out pos
      else if opt = "-o" then
        match rest with
        | [] => .crash
        | arg :: rest2 => parseLoop stoi rest2 aa size (some arg) pos
      else if opt = "-h" ∨ opt = "-help" then .exitOk
      else .exitFail
    else parseLoop stoi rest aa size out (pos ++ [opt])

/-- Embedding of the argument handling of main, lines 160 to 218: runs the
option loop with the defaults of one AA sample and output size 1024, then
requires exactly two positional arguments. -/
def parseArgs (stoi : String → Option ℤ) (args : List String) : ParseOutcome :=
  match parseLoop stoi args 1 1024 none [] with
  | .ok aa size out pos => if pos.length ≠ 2 then .exitFail else .ok aa size out pos
  | r => r

/-- Value of a leading run of decimal digits, most significant first. -/
def digitsAcc : List Char → ℕ → ℕ
  | [], acc => acc
  | c :: rest, acc =>
    if c.isDigit then digitsAcc rest (10 * acc + (c.toNat - 48)) else acc

/-- Whether a character list starts with a decimal digit. -/
def hasLeadingDigit : List Char → Bool
  | [] => false
  | c :: _ => c.isDigit

/-- A concrete model of std::stoi for witnesses: parses an optional minus
sign followed by a leading run of digits, and fails (throws) when no digit
is present. -/
def stoiM (s : String) : Option ℤ :=
  match s.data with
  | [] => none
  | c :: rest =>
    if c = dashChar then
      if hasLeadingDigit rest then some (-(digitsAcc rest 0 : ℤ)) else none
    else if hasLeadingDigit (c :: rest) then some ((digitsAcc (c :: rest) 0 : ℤ))
    else none

/-! ### Spec-side definitions and concrete instances used by the claims -/

/-- Modelled on the six-row table of the spec, one row per face code in the
order +X, -X, +Y, -Y, +Z, -Z, giving (tmp_s, tmp_t, m) with m the absolute
major-axis component. -/
def specFaceTable (x y z : K) : ℕ → K × K × K
  | 0 => (-z, -y, |x|)
  | 1 => (z, -y, |x|)
  | 2 => (x, z, |y|)
  | 3 => (x, -z, |y|)
  | 4 => (x, -y, |z|)
  | _ => (-x, -y, |z|)

/-- Concrete face array for the C4 witness: two-by-two faces with a
constant buffer. -/
def c4Faces : ℕ → Image := fun _ => ⟨2, 2, some fun _ => 5⟩

/-- Concrete face array for the C9 claim: four-by-four faces with a
constant buffer. -/
def c9Faces : ℕ → Image := fun _ => ⟨4, 4, some fun _ => 0⟩

/-- A decoder on which every load fails, for the C7 claim. -/
def failDecode : String → Option (ℤ × ℤ × (ℤ → ℕ)) := fun _ => none

/-- Concrete subsample color function for the C5 witness: red channel 3 at
the pixel center and 1 elsewhere, so that the five-sample red sum is 7. -/
def c5SampleFn : ℚ → ℚ → ℕ × ℕ × ℕ :=
  fun a _ => (if a = 1 / 2 then 3 else 1, 2, 255)

/-- The packed color as a plain sum of shifted bytes. -/
theorem makeColor_eq_add {r g b : ℕ} (hr : r < 256) (hg : g < 256) (hb : b < 256) :
    makeColor r g b = 2 ^ 24 * 255 + (2 ^ 16 * b + (2 ^ 8 * g + r)) := by
  have h8 : r < 2 ^ 8 := lt_of_lt_of_le hr (by norm_num)
  have e1 : r ||| g <<< 8 = 2 ^ 8 * g + r := by
    rw [Nat.shiftLeft_eq, Nat.lor_comm, Nat.mul_comm g (2 ^ 8)]
    exact (Nat.mul_add_lt_is_or h8 g).symm
  have h16 : 2 ^ 8 * g + r < 2 ^ 16 := by
    have : (2:ℕ) ^ 8 * g ≤ 2 ^ 8 * 255 := Nat.mul_le_mul_left _ (by omega)
    norm_num at this ⊢
    omega
  have e2 : 2 ^ 8 * g + r ||| b <<< 16 = 2 ^ 16 * b + (2 ^ 8 * g + r) := by
    rw [Nat.shiftLeft_eq, Nat.lor_comm, Nat.mul_comm b (2 ^ 16)]
    exact (Nat.mul_add_lt_is_or h16 b).symm
  have h24 : 2 ^ 16 * b + (2 ^ 8 * g + r) < 2 ^ 24 := by
    have hbb : (2:ℕ) ^ 16 * b ≤ 2 ^ 16 * 255 := Nat.mul_le_mul_left _ (by omega)
    have hgg : (2:ℕ) ^ 8 * g ≤ 2 ^ 8 * 255 := Nat.mul_le_mul_left _ (by omega)
    norm_num at hbb hgg ⊢
    omega
  have e3 : 2 ^ 16 * b + (2 ^ 8 * g + r) ||| 255 <<< 24
      = 2 ^ 24 * 255 + (2 ^ 16 * b + (2 ^ 8 * g + r)) := by
    rw [Nat.shiftLeft_eq, Nat.lor_comm, Nat.mul_comm 255 (2 ^ 24)]
    exact (Nat.mul_add_lt_is_or h24 255).symm
  unfold makeColor
  rw [e1, e2, e3]

/-- Round trip of the byte packing: splitColor recovers the three channels. -/
theorem splitColor_makeColor {r g b : ℕ} (hr : r < 256) (hg : g < 256) (hb : b < 256) :
    splitColor (makeColor r g b) = (r, g, b) := by
  have hm := makeColor_eq_add hr hg hb
  have hmask : ∀ n : ℕ, n &&& 0xFF = n % 2 ^ 8 := by
    intro n
    have : (0xFF : ℕ) = 2 ^ 8 - 1 := by norm_num
    rw [this, Nat.and_pow_two_sub_one_eq_mod]
  unfold splitColor
  rw [hm]
  rw [Nat.shiftRight_eq_div_pow, Nat.shiftRight_eq_div_pow, Nat.shiftRight_eq_div_pow]
  rw [hmask, hmask, hmask]
  norm_num
  constructor
  · omega
  constructor
  · omega
  · omega

/-- The high byte of a packed color is always 255. -/
theorem makeColor_high_byte {r g b : ℕ} (hr : r < 256) (hg : g < 256) (hb : b < 256) :
    makeColor r g b &&& 0xFF000000 = 0xFF000000 := by
  have hm := makeColor_eq_add hr hg hb
  have hrest : 2 ^ 16 * b + (2 ^ 8 * g + r) < 2 ^ 24 := by
    have hbb : (2:ℕ) ^ 16 * b ≤ 2 ^ 16 * 255 := Nat.mul_le_mul_left _ (by omega)
    have hgg : (2:ℕ) ^ 8 * g ≤ 2 ^ 8 * 255 := Nat.mul_le_mul_left _ (by omega)
    norm_num at hbb hgg ⊢
    omega
  have hM : (0xFF000000 : ℕ) = 2 ^ 24 * 255 + 0 := by norm_num
  apply Nat.eq_of_testBit_eq
  intro j
  rw [Nat.testBit_and, hm, hM,
      Nat.testBit_mul_pow_two_add 255 hrest j,
      Nat.testBit_mul_pow_two_add 255 (by norm_num : (0:ℕ) < 2 ^ 24) j]
  by_cases hj : j < 24
  · simp [hj]
  · simp [hj]

theorem majorAxis_cases (x y z : K) :
    majorAxis x y z = 0 ∨ majorAxis x y z = 1 ∨ majorAxis x y z = 2 := by
  unfold majorAxis
  split_ifs <;> simp

theorem faceIndex_eq (x y z : K) :
    faceIndex x y z = 2 * majorAxis x y z ∨
    faceIndex x y z = 2 * majorAxis x y z + 1 := by
  unfold faceIndex
  split_ifs <;> simp

/-- The selected absolute component dominates every component. -/
theorem vecAbs_le_majorAxis (x y z : K) (j : ℕ) :
    vecAbs x y z j ≤ vecAbs x y z (majorAxis x y z) := by
  have hj : vecAbs x y z j = |x| ∨ vecAbs x y z j = |y| ∨ vecAbs x y z j = |z| := by
    match j with
    | 0 => left; rfl
    | 1 => right; left; rfl
    | n + 2 => right; right; rfl
  unfold majorAxis
  split_ifs with h1 h2
  · rcases hj with h | h | h <;> rw [h] <;> simp [vecAbs]
    · exact h1.1
    · exact h1.2
  · rcases hj with h | h | h <;> rw [h] <;> simp [vecAbs]
    · exact h2.1
    · exact h2.2
  · push_neg at h1 h2
    have hxz : |x| ≤ |z| ∧ |y| ≤ |z| := by
      rcases le_total (|y| : K) |x| with hyx | hxy
      · have hx := h1 hyx
        exact ⟨le_of_lt hx, le_trans hyx (le_of_lt hx)⟩
      · have hy := h2 hxy
        exact ⟨le_trans hxy (le_of_lt hy), le_of_lt hy⟩
    rcases hj with h | h | h <;> rw [h] <;> simp [vecAbs]
    · exact hxz.1
    · exact hxz.2

/-- Ties resolve toward the lower axis index: every axis strictly below the
selected one has a strictly smaller absolute component. -/
theorem vecAbs_lt_of_lt_majorAxis (x y z : K) (j : ℕ)
    (hj : j < majorAxis x y z) :
    vecAbs x y z j < vecAbs x y z (majorAxis x y z) := by
  unfold majorAxis at hj ⊢
  split_ifs at hj ⊢ with h1 h2
  · omega
  · push_neg at h1
    interval_cases j
    have hx : |x| < |y| := by
      rcases le_or_lt (|y| : K) |x| with hyx | hlt
      · have hxz := h1 hyx
        have : |x| < |x| := lt_of_lt_of_le hxz (le_trans h2.2 hyx)
        exact absurd this (lt_irrefl _)
      · exact hlt
    simpa [vecAbs] using hx
  · push_neg at h1 h2
    have hxz : |x| < |z| ∧ |y| < |z| := by
      rcases le_total (|y| : K) |x| with hyx | hxy
      · have hxltz := h1 hyx
        exact ⟨hxltz, lt_of_le_of_lt hyx hxltz⟩
      · have hyltz := h2 hxy
        exact ⟨lt_of_le_of_lt hxy hyltz, hyltz⟩
    interval_cases j
    · simpa [vecAbs] using hxz.1
    · simpa [vecAbs] using hxz.2

/-- The divisor m equals the absolute component of the selected axis. -/
theorem majorM_eq_vecAbs (x y z : K) :
    majorM x y z = vecAbs x y z (majorAxis x y z) := by
  unfold majorM faceIndex
  rcases majorAxis_cases x y z with h | h | h <;> rw [h] <;>
    split_ifs <;> simp [faceVals, vecAbs]

/-- The divisor m is the largest absolute component. -/
theorem majorM_eq_max (x y z : K) :
    majorM x y z = max |x| (max |y| |z|) := by
  rw [majorM_eq_vecAbs]
  apply le_antisymm
  · have hsel : vecAbs x y z (majorAxis x y z) = |x| ∨
        vecAbs x y z (majorAxis x y z) = |y| ∨
        vecAbs x y z (majorAxis x y z) = |z| := by
      rcases majorAxis_cases x y z with h | h | h <;> rw [h] <;> simp [vecAbs]
    rcases hsel with h | h | h <;> rw [h]
    · exact le_max_left _ _
    · exact le_trans (le_max_left _ _) (le_max_right _ _)
    · exact le_trans (le_max_right _ _) (le_max_right _ _)
  · apply max_le
    · exact vecAbs_le_majorAxis x y z 0
    · apply max_le
      · exact vecAbs_le_majorAxis x y z 1
      · exact vecAbs_le_majorAxis x y z 2

/-- The divisor m is positive for every direction that is not all zero. -/
theorem majorM_pos (x y z : K) (h : ¬(x = 0 ∧ y = 0 ∧ z = 0)) :
    0 < majorM x y z := by
  rw [majorM_eq_max]
  rcases lt_or_le 0 (max |x| (max |y| |z|)) with hpos | hle
  · exact hpos
  · exfalso
    apply h
    have hx : |x| ≤ 0 := le_trans (le_max_left _ _) hle
    have hy : |y| ≤ 0 := le_trans (le_trans (le_max_left _ _) (le_max_right _ _)) hle
    have hz : |z| ≤ 0 := le_trans (le_trans (le_max_right _ _) (le_max_right _ _)) hle
    exact ⟨abs_nonpos_iff.mp hx, abs_nonpos_iff.mp hy, abs_nonpos_iff.mp hz⟩

/-- Both table entries tmp_s and tmp_t are bounded by m in absolute value,
for every face code. -/
theorem faceVals_abs_le (x y z : K) (f : ℕ) :
    |(faceVals x y z f).1| ≤ max |x| (max |y| |z|) ∧
    |(faceVals x y z f).2.1| ≤ max |x| (max |y| |z|) := by
  have hx : |x| ≤ max |x| (max |y| |z|) := le_max_left _ _
  have hy : |y| ≤ max |x| (max |y| |z|) :=
    le_trans (le_max_left _ _) (le_max_right _ _)
  have hz : |z| ≤ max |x| (max |y| |z|) :=
    le_trans (le_max_right _ _) (le_max_right _ _)
  match f with
  | 0 => exact ⟨by simpa [faceVals, abs_neg] using hz, by simpa [faceVals, abs_neg] using hy⟩
  | 1 => exact ⟨by simpa [faceVals] using hz, by simpa [faceVals, abs_neg] using hy⟩
  | 2 => exact ⟨by simpa [faceVals] using hx, by simpa [faceVals] using hz⟩
  | 3 => exact ⟨by simpa [faceVals] using hx, by simpa [faceVals, abs_neg] using hz⟩
  | 4 => exact ⟨by simpa [faceVals] using hx, by simpa [faceVals, abs_neg] using hy⟩
  | n + 5 => exact ⟨by simpa [faceVals, abs_neg] using hx, by simpa [faceVals, abs_neg] using hy⟩

/-- Half of (u / m + 1) lies in the unit interval when u is bounded by m. -/
theorem half_div_add_one_mem {u m : K} (hm : 0 < m) (hu : |u| ≤ m) :
    0 ≤ 1 / 2 * (u / m + 1) ∧ 1 / 2 * (u / m + 1) ≤ 1 := by
  rw [abs_le] at hu
  have hup : u / m ≤ 1 := (div_le_one hm).mpr hu.2
  have hlo : (-1 : K) ≤ u / m := by
    rw [le_div_iff hm]
    linarith [hu.1]
  constructor <;> linarith

/-- The texture coordinates returned by computeTexCoords lie in the unit
interval for every direction that is not all zero. -/
theorem computeTexCoords_mem_unit (x y z : K) (h : ¬(x = 0 ∧ y = 0 ∧ z = 0)) :
    (computeTexCoords x y z).2.1 ∈ Set.Icc (0 : K) 1 ∧
    (computeTexCoords x y z).2.2 ∈ Set.Icc (0 : K) 1 := by
  have hm : 0 < majorM x y z := majorM_pos x y z h
  have hb := faceVals_abs_le x y z (faceIndex x y z)
  rw [← majorM_eq_max] at hb
  have hs := half_div_add_one_mem hm hb.1
  have ht := half_div_add_one_mem hm hb.2
  unfold computeTexCoords
  exact ⟨⟨hs.1, hs.2⟩, ⟨ht.1, ht.2⟩⟩

/-- The projector never returns the all-zero vector. -/
theorem projDir_ne_zero (s t : ℝ) : projDir s t ≠ (0, 0, 0) := by
  unfold projDir
  dsimp only
  split_ifs with hp
  · intro hc
    have := congrArg (fun w : ℝ × ℝ × ℝ => w.2.2) hc
    norm_num at this
  · intro hc
    rw [Prod.ext_iff, Prod.ext_iff] at hc
    obtain ⟨hx, hy, hz⟩ := hc
    simp only at hx hy hz
    have hq : s - s * s + t - t * t = 3 / 8 := by linarith
    have hp2 : 16 * (s - s * s + t - t * t) - 4 = 2 := by rw [hq]; norm_num
    have hsp : 0 < Real.sqrt (16 * (s - s * s + t - t * t) - 4) := by
      rw [hp2]
      exact Real.sqrt_pos.mpr (by norm_num)
    have hs2 : 2 * s - 1 = 0 := by
      rcases mul_eq_zero.mp hx with h | h
      · exact absurd h (ne_of_gt hsp)
      · exact h
    have ht2 : -(2 * t - 1) = 0 := by
      rcases mul_eq_zero.mp hy with h | h
      · exact absurd h (ne_of_gt hsp)
      · exact h
    have hs3 : s = 1 / 2 := by linarith
    have ht3 : t = 1 / 2 := by linarith
    rw [hs3, ht3] at hq
    norm_num at hq

/-- The components of the projector output are never simultaneously zero. -/
theorem projDir_not_all_zero (s t : ℝ) :
    ¬((projDir s t).1 = 0 ∧ (projDir s t).2.1 = 0 ∧ (projDir s t).2.2 = 0) := by
  intro h
  apply projDir_ne_zero s t
  rw [Prod.ext_iff, Prod.ext_iff]
  exact ⟨h.1, h.2.1, h.2.2⟩

/-- The accumulation loop computes the three per-channel sums over the
subsample list. -/
theorem accumSamples_eq_sum (sample : ℚ → ℚ → ℕ × ℕ × ℕ) (cs ct ps : ℚ)
    (pattern : List (ℚ × ℚ)) :
    accumSamples sample cs ct ps pattern =
      ((pattern.map fun off => (sample (cs + off.1 * ps) (ct + off.2 * ps)).1).sum,
       (pattern.map fun off => (sample (cs + off.1 * ps) (ct + off.2 * ps)).2.1).sum,
       (pattern.map fun off => (sample (cs + off.1 * ps) (ct + off.2 * ps)).2.2).sum) := by
  induction pattern with
  | nil => rfl
  | cons off rest ih =>
    simp only [accumSamples, ih, List.map_cons, List.sum_cons]

/-- A sum over a list of naturals each below 256 divided by the list length
is below 256. -/
theorem sum_div_length_lt {l : List ℕ} (hne : l ≠ []) (hb : ∀ a ∈ l, a < 256) :
    l.sum / l.length < 256 := by
  have hlen : 0 < l.length := List.length_pos.mpr hne
  have hsum : l.sum ≤ 255 * l.length := by
    calc l.sum ≤ l.length * 255 := by
          apply List.sum_le_card_nsmul
          intro a ha
          exact Nat.lt_succ_iff.mp (hb a ha)
      _ = 255 * l.length := Nat.mul_comm _ _
  have : l.sum < 256 * l.length := by omega
  exact Nat.div_lt_of_lt_mul (by omega)

/-! ### Claim C6: color packing round trip -/

/-- C6: for all byte values r, g, b below 256, splitColor inverts makeColor
and the top byte of the packed color is always 0xFF. -/
theorem C6_color_pack_roundtrip (r g b : ℕ) (hr : r < 256) (hg : g < 256)
    (hb : b < 256) :
    splitColor (makeColor r g b) = (r, g, b) ∧
    makeColor r g b &&& 0xFF000000 = 0xFF000000 :=
  ⟨splitColor_makeColor hr hg hb, makeColor_high_byte hr hg hb⟩

/-- Witness for C6 at the concrete bytes 202, 27, 9. -/
theorem C6_witness :
    (202 : ℕ) < 256 ∧ (27 : ℕ) < 256 ∧ (9 : ℕ) < 256 ∧
    (splitColor (makeColor 202 27 9) = (202, 27, 9) ∧
      makeColor 202 27 9 &&& 0xFF000000 = 0xFF000000) :=
  ⟨by decide, by decide, by decide,
    C6_color_pack_roundtrip 202 27 9 (by decide) (by decide) (by decide)⟩

/-! ### Claim C1: computeTexCoords follows the spec algorithm -/

/-- C1: for every direction that is not all zero, writing f for the
returned face code and ax for f / 2: ax attains the maximum absolute
component; every axis strictly below ax has a strictly smaller absolute
component, so ties resolve toward the lower index under the greater-equal
ordering; f equals 2 * ax + 1 exactly when the signed component along ax is
negative and 2 * ax otherwise; and the returned coordinates are
s = 0.5 * (tmp_s / m + 1) and t = 0.5 * (tmp_t / m + 1) with
(tmp_s, tmp_t, m) taken from the spec six-row table at f. -/
theorem C1_computeTexCoords_algorithm (x y z : K)
    (h : ¬(x = 0 ∧ y = 0 ∧ z = 0)) :
    (∀ j, vecAbs x y z j ≤ vecAbs x y z ((computeTexCoords x y z).1 / 2)) ∧
    (∀ j, j < (computeTexCoords x y z).1 / 2 →
      vecAbs x y z j < vecAbs x y z ((computeTexCoords x y z).1 / 2)) ∧
    ((computeTexCoords x y z).1 =
      if vecComp x y z ((computeTexCoords x y z).1 / 2) < 0
      then 2 * ((computeTexCoords x y z).1 / 2) + 1
      else 2 * ((computeTexCoords x y z).1 / 2)) ∧
    ((computeTexCoords x y z).2.1 =
      1 / 2 * ((specFaceTable x y z (computeTexCoords x y z).1).1 /
        (specFaceTable x y z (computeTexCoords x y z).1).2.2 + 1)) ∧
    ((computeTexCoords x y z).2.2 =
      1 / 2 * ((specFaceTable x y z (computeTexCoords x y z).1).2.1 /
        (specFaceTable x y z (computeTexCoords x y z).1).2.2 + 1)) := by
  have hf : (computeTexCoords x y z).1 = faceIndex x y z := rfl
  have hax : (computeTexCoords x y z).1 / 2 = majorAxis x y z := by
    rw [hf]
    rcases faceIndex_eq x y z with h2 | h2 <;> rw [h2] <;> omega
  refine ⟨?_, ?_, ?_, ?_, ?_⟩
  · intro j
    rw [hax]
    exact vecAbs_le_majorAxis x y z j
  · intro j hj
    rw [hax] at hj ⊢
    exact vecAbs_lt_of_lt_majorAxis x y z j hj
  · rw [hax, hf]
    rfl
  · rfl
  · rfl

/-- Witness for C1 at the tied direction (1, 1, 0) over the rationals; face
code 0 checks that the tie resolves to the positive x axis. -/
theorem C1_witness :
    ¬((1:ℚ) = 0 ∧ (1:ℚ) = 0 ∧ (0:ℚ) = 0) ∧
    (computeTexCoords (1:ℚ) 1 0).1 = 0 ∧
    ((∀ j, vecAbs (1:ℚ) 1 0 j ≤ vecAbs (1:ℚ) 1 0 ((computeTexCoords (1:ℚ) 1 0).1 / 2)) ∧
     (∀ j, j < (computeTexCoords (1:ℚ) 1 0).1 / 2 →
       vecAbs (1:ℚ) 1 0 j < vecAbs (1:ℚ) 1 0 ((computeTexCoords (1:ℚ) 1 0).1 / 2)) ∧
     ((computeTexCoords (1:ℚ) 1 0).1 =
       if vecComp (1:ℚ) 1 0 ((computeTexCoords (1:ℚ) 1 0).1 / 2) < 0
       then 2 * ((computeTexCoords (1:ℚ) 1 0).1 / 2) + 1
       else 2 * ((computeTexCoords (1:ℚ) 1 0).1 / 2)) ∧
     ((computeTexCoords (1:ℚ) 1 0).2.1 =
       1 / 2 * ((specFaceTable (1:ℚ) 1 0 (computeTexCoords (1:ℚ) 1 0).1).1 /
         (specFaceTable (1:ℚ) 1 0 (computeTexCoords (1:ℚ) 1 0).1).2.2 + 1)) ∧
     ((computeTexCoords (1:ℚ) 1 0).2.2 =
       1 / 2 * ((specFaceTable (1:ℚ) 1 0 (computeTexCoords (1:ℚ) 1 0).1).2.1 /
         (specFaceTable (1:ℚ) 1 0 (computeTexCoords (1:ℚ) 1 0).1).2.2 + 1))) :=
  ⟨by decide, by decide, C1_computeTexCoords_algorithm 1 1 0 (by decide)⟩

/-! ### Claim C2: projector formula -/

/-- C2: for every pair (s, t), the projector step agrees with the spec
formula: p = 16*(s - s^2 + t - t^2) - 4; when p is negative the result is
the back pole (0, 0, -1); otherwise it is
(sqrt p * (2s - 1), -(sqrt p * (2t - 1)), 8*(s - s^2 + t - t^2) - 3). -/
theorem C2_projector_formula (s t : ℝ) : projDir s t = projDirSpec s t := by
  unfold projDir projDirSpec
  have hq : s - s * s + t - t * t = s - s ^ 2 + t - t ^ 2 := by ring
  dsimp only
  rw [hq]
  split_ifs with hp
  · rfl
  · simp only [Prod.mk.injEq]
    exact ⟨trivial, by ring, trivial⟩

/-- Witness for C2 at the concrete point (1/4, 3/4). -/
theorem C2_witness : projDir (1/4) (3/4) = projDirSpec (1/4) (3/4) :=
  C2_projector_formula (1/4) (3/4)

/-! ### Claim C3: texture coordinates stay in the unit interval -/

/-- C3: for every direction with at least one nonzero component the
coordinates returned by computeTexCoords lie in [0, 1]; and composing the
projector with computeTexCoords from any subsample point in the unit square
again yields coordinates in [0, 1]. -/
theorem C3_coords_in_unit :
    (∀ x y z : ℝ, ¬(x = 0 ∧ y = 0 ∧ z = 0) →
      (computeTexCoords x y z).2.1 ∈ Set.Icc (0:ℝ) 1 ∧
      (computeTexCoords x y z).2.2 ∈ Set.Icc (0:ℝ) 1) ∧
    (∀ s t : ℝ, s ∈ Set.Icc (0:ℝ) 1 → t ∈ Set.Icc (0:ℝ) 1 →
      (computeTexCoords (projDir s t).1 (projDir s t).2.1 (projDir s t).2.2).2.1
        ∈ Set.Icc (0:ℝ) 1 ∧
      (computeTexCoords (projDir s t).1 (projDir s t).2.1 (projDir s t).2.2).2.2
        ∈ Set.Icc (0:ℝ) 1) := by
  constructor
  · intro x y z h
    exact computeTexCoords_mem_unit x y z h
  · intro s t hs ht
    exact computeTexCoords_mem_unit _ _ _ (projDir_not_all_zero s t)

/-- Witness for C3 at the direction (3, 4, 12) and the subsample point
(1/2, 1/2). -/
theorem C3_witness :
    (¬((3:ℝ) = 0 ∧ (4:ℝ) = 0 ∧ (12:ℝ) = 0) ∧
      ((computeTexCoords (3:ℝ) 4 12).2.1 ∈ Set.Icc (0:ℝ) 1 ∧
       (computeTexCoords (3:ℝ) 4 12).2.2 ∈ Set.Icc (0:ℝ) 1)) ∧
    ((1/2 : ℝ) ∈ Set.Icc (0:ℝ) 1 ∧
      ((computeTexCoords (projDir (1/2) (1/2)).1 (projDir (1/2) (1/2)).2.1
          (projDir (1/2) (1/2)).2.2).2.1 ∈ Set.Icc (0:ℝ) 1 ∧
       (computeTexCoords (projDir (1/2) (1/2)).1 (projDir (1/2) (1/2)).2.1
          (projDir (1/2) (1/2)).2.2).2.2 ∈ Set.Icc (0:ℝ) 1)) :=
  ⟨⟨by norm_num, C3_coords_in_unit.1 3 4 12 (by norm_num)⟩,
   ⟨by constructor <;> norm_num,
    C3_coords_in_unit.2 (1/2) (1/2)
      (by constructor <;> norm_num) (by constructor <;> norm_num)⟩⟩

/-! ### Claim C10: the projector direction is never zero (corrected) -/

/-- Counterexample to C10 as stated: at the subsample point (0, 1/2) the
projector takes the nonnegative branch (p equals 0 there), both the x and y
components vanish, yet s is not 1/2 and the z component is -1, not 1. So
the parenthetical of the claim, that x = y = 0 forces s = t = 0.5 with
z = 1, is false. -/
theorem C10_counterexample :
    ¬(16 * ((0:ℝ) - 0 * 0 + 1 / 2 - 1 / 2 * (1 / 2)) - 4 < 0) ∧
    projDir 0 (1 / 2) = (0, 0, -1) ∧ (0:ℝ) ≠ 1 / 2 := by
  refine ⟨by norm_num, ?_, by norm_num⟩
  unfold projDir
  dsimp only
  rw [if_neg (by norm_num)]
  have he : 16 * ((0:ℝ) - 0 * 0 + 1 / 2 - 1 / 2 * (1 / 2)) - 4 = 0 := by norm_num
  rw [he, Real.sqrt_zero]
  norm_num

/-- C10 amended: for every (s, t) the projector direction is never the all
zero vector and the divisor m of computeTexCoords on it is nonzero, so the
divisions never divide by zero; in the nonnegative branch, vanishing x and
y components force the z component to be 1 (when s = t = 1/2) or -1 (when
p = 0), never 0. -/
theorem C10_projector_nonzero :
    (∀ s t : ℝ, projDir s t ≠ (0, 0, 0) ∧
      majorM (projDir s t).1 (projDir s t).2.1 (projDir s t).2.2 ≠ 0) ∧
    (∀ s t : ℝ, ¬(16 * (s - s * s + t - t * t) - 4 < 0) →
      (projDir s t).1 = 0 → (projDir s t).2.1 = 0 →
      (projDir s t).2.2 = 1 ∨ (projDir s t).2.2 = -1) := by
  constructor
  · intro s t
    exact ⟨projDir_ne_zero s t,
      ne_of_gt (majorM_pos _ _ _ (projDir_not_all_zero s t))⟩
  · intro s t hp hx hy
    unfold projDir at hx hy ⊢
    dsimp only at hx hy ⊢
    rw [if_neg hp] at hx hy ⊢
    dsimp only at hx hy ⊢
    rcases mul_eq_zero.mp hx with hsq | hs2
    · right
      have hple : 16 * (s - s * s + t - t * t) - 4 ≤ 0 := Real.sqrt_eq_zero'.mp hsq
      have hp0 : 16 * (s - s * s + t - t * t) - 4 = 0 := le_antisymm hple (not_lt.mp hp)
      linarith
    · rcases mul_eq_zero.mp hy with hsq | ht2
      · right
        have hple : 16 * (s - s * s + t - t * t) - 4 ≤ 0 := Real.sqrt_eq_zero'.mp hsq
        have hp0 : 16 * (s - s * s + t - t * t) - 4 = 0 := le_antisymm hple (not_lt.mp hp)
        linarith
      · left
        have hs : s = 1 / 2 := by linarith
        have ht : t = 1 / 2 := by linarith
        rw [hs, ht]
        norm_num

/-- Witness for C10 at the subsample points (0, 0) and (1/2, 1/2). -/
theorem C10_witness :
    (projDir 0 0 ≠ (0, 0, 0) ∧
      majorM (projDir 0 0).1 (projDir 0 0).2.1 (projDir 0 0).2.2 ≠ 0) ∧
    (¬(16 * ((1/2:ℝ) - 1 / 2 * (1 / 2) + 1 / 2 - 1 / 2 * (1 / 2)) - 4 < 0) ∧
      (projDir (1/2) (1/2)).1 = 0 ∧ (projDir (1/2) (1/2)).2.1 = 0 ∧
      ((projDir (1/2) (1/2)).2.2 = 1 ∨ (projDir (1/2) (1/2)).2.2 = -1)) := by
  have hx : (projDir (1/2:ℝ) (1/2)).1 = 0 := by
    unfold projDir
    dsimp only
    rw [if_neg (by norm_num)]
    norm_num
  have hy : (projDir (1/2:ℝ) (1/2)).2.1 = 0 := by
    unfold projDir
    dsimp only
    rw [if_neg (by norm_num)]
    norm_num
  exact ⟨C10_projector_nonzero.1 0 0,
    ⟨by norm_num, hx, hy,
      C10_projector_nonzero.2 (1/2) (1/2) (by norm_num) hx hy⟩⟩

/-! ### Claim C4: nearest-neighbor sampling stays in range -/

/-- C4: for a face with positive width and height and coordinates s, t in
[0, 1], sampleFace reads the texel at x = min(floor(s * width), width - 1)
and y = min(floor(t * height), height - 1), and these coordinates always
lie inside the face bounds. -/
theorem C4_sampleFace_in_range (faces : ℕ → Image) (face : ℕ) (s t : ℚ)
    (hw : 0 < (faces face).width) (hh : 0 < (faces face).height)
    (hs : s ∈ Set.Icc (0:ℚ) 1) (ht : t ∈ Set.Icc (0:ℚ) 1) :
    sampleFace faces face s t =
      readTexel faces face
        (min ⌊s * ((faces face).width : ℚ)⌋ ((faces face).width - 1))
        (min ⌊t * ((faces face).height : ℚ)⌋ ((faces face).height - 1)) ∧
    0 ≤ min ⌊s * ((faces face).width : ℚ)⌋ ((faces face).width - 1) ∧
    min ⌊s * ((faces face).width : ℚ)⌋ ((faces face).width - 1) <
      (faces face).width ∧
    0 ≤ min ⌊t * ((faces face).height : ℚ)⌋ ((faces face).height - 1) ∧
    min ⌊t * ((faces face).height : ℚ)⌋ ((faces face).height - 1) <
      (faces face).height := by
  have hsw : (0:ℚ) ≤ s * ((faces face).width : ℚ) :=
    mul_nonneg hs.1 (by exact_mod_cast hw.le)
  have hth : (0:ℚ) ≤ t * ((faces face).height : ℚ) :=
    mul_nonneg ht.1 (by exact_mod_cast hh.le)
  have htrs : cTrunc (s * ((faces face).width : ℚ)) =
      ⌊s * ((faces face).width : ℚ)⌋ := by
    unfold cTrunc
    rw [if_pos hsw]
  have htrt : cTrunc (t * ((faces face).height : ℚ)) =
      ⌊t * ((faces face).height : ℚ)⌋ := by
    unfold cTrunc
    rw [if_pos hth]
  refine ⟨?_, ?_, ?_, ?_, ?_⟩
  · unfold sampleFace
    dsimp only
    rw [htrs, htrt]
  · exact le_min (Int.floor_nonneg.mpr hsw) (by omega)
  · exact lt_of_le_of_lt (min_le_right _ _) (by omega)
  · exact le_min (Int.floor_nonneg.mpr hth) (by omega)
  · exact lt_of_le_of_lt (min_le_right _ _) (by omega)

/-- Witness for C4 on a two-by-two face at s = 1 and t = 1/2, where the
minimum clamps the x coordinate to width - 1. -/
theorem C4_witness :
    (0:ℤ) < (c4Faces 0).width ∧ (0:ℤ) < (c4Faces 0).height ∧
    (1:ℚ) ∈ Set.Icc (0:ℚ) 1 ∧ (1/2:ℚ) ∈ Set.Icc (0:ℚ) 1 ∧
    (sampleFace c4Faces 0 1 (1/2) =
      readTexel c4Faces 0
        (min ⌊(1:ℚ) * ((c4Faces 0).width : ℚ)⌋ ((c4Faces 0).width - 1))
        (min ⌊(1/2:ℚ) * ((c4Faces 0).height : ℚ)⌋ ((c4Faces 0).height - 1)) ∧
     0 ≤ min ⌊(1:ℚ) * ((c4Faces 0).width : ℚ)⌋ ((c4Faces 0).width - 1) ∧
     min ⌊(1:ℚ) * ((c4Faces 0).width : ℚ)⌋ ((c4Faces 0).width - 1) <
       (c4Faces 0).width ∧
     0 ≤ min ⌊(1/2:ℚ) * ((c4Faces 0).height : ℚ)⌋ ((c4Faces 0).height - 1) ∧
     min ⌊(1/2:ℚ) * ((c4Faces 0).height : ℚ)⌋ ((c4Faces 0).height - 1) <
       (c4Faces 0).height) :=
  ⟨by decide, by decide, ⟨by norm_num, by norm_num⟩, ⟨by norm_num, by norm_num⟩,
    C4_sampleFace_in_range c4Faces 0 1 (1/2) (by decide) (by decide)
      ⟨by norm_num, by norm_num⟩ ⟨by norm_num, by norm_num⟩⟩

/-! ### Claim C5: AA accumulation and truncating average -/

/-- A mapped sum of values below 256 divided by the list length is below
256. -/
theorem map_sum_div_lt {α : Type} (l : List α) (hne : l ≠ []) (f : α → ℕ)
    (hf : ∀ a, f a < 256) : (l.map f).sum / l.length < 256 := by
  have h := sum_div_length_lt (l := l.map f) (by simpa using hne)
    (by
      intro a ha
      obtain ⟨b, hb, rfl⟩ := List.mem_map.mp ha
      exact hf b)
  simpa [List.length_map] using h

/-- C5: the pixel patterns are exactly the claimed offset lists, and for
every nonempty pattern and every subsample color function with byte-sized
channels, the stored pixel channels are the per-channel sums over the
subsamples at center plus offset times pixel size, divided by the sample
count with truncating natural division. -/
theorem C5_rasterizer_truncating_average (sample : ℚ → ℚ → ℕ × ℕ × ℕ)
    (N px py : ℤ) (pattern : List (ℚ × ℚ)) (hne : pattern ≠ [])
    (hb : ∀ a b : ℚ, (sample a b).1 < 256 ∧ (sample a b).2.1 < 256 ∧
      (sample a b).2.2 < 256) :
    aa_pattern_none = [((0:ℚ), (0:ℚ))] ∧
    aa_pattern_5x = [(0, 0), (-(3:ℚ)/16, -(3:ℚ)/8), ((3:ℚ)/8, -(3:ℚ)/16),
      ((3:ℚ)/16, (3:ℚ)/8), (-(3:ℚ)/8, (3:ℚ)/16)] ∧
    splitColor (rasterPixel sample N px py pattern) =
      ((pattern.map fun off =>
          (sample (((px:ℚ) + 1 / 2) / (N:ℚ) + off.1 * (1 / (N:ℚ)))
            (((py:ℚ) + 1 / 2) / (N:ℚ) + off.2 * (1 / (N:ℚ)))).1).sum
          / pattern.length,
       (pattern.map fun off =>
          (sample (((px:ℚ) + 1 / 2) / (N:ℚ) + off.1 * (1 / (N:ℚ)))
            (((py:ℚ) + 1 / 2) / (N:ℚ) + off.2 * (1 / (N:ℚ)))).2.1).sum
          / pattern.length,
       (pattern.map fun off =>
          (sample (((px:ℚ) + 1 / 2) / (N:ℚ) + off.1 * (1 / (N:ℚ)))
            (((py:ℚ) + 1 / 2) / (N:ℚ) + off.2 * (1 / (N:ℚ)))).2.2).sum
          / pattern.length) := by
  refine ⟨rfl, by norm_num [aa_pattern_5x], ?_⟩
  have h1 := map_sum_div_lt pattern hne
    (fun off => (sample (unlerp px N + off.1 * (1 / (N:ℚ)))
      (unlerp py N + off.2 * (1 / (N:ℚ)))).1)
    (fun off => (hb _ _).1)
  have h2 := map_sum_div_lt pattern hne
    (fun off => (sample (unlerp px N + off.1 * (1 / (N:ℚ)))
      (unlerp py N + off.2 * (1 / (N:ℚ)))).2.1)
    (fun off => (hb _ _).2.1)
  have h3 := map_sum_div_lt pattern hne
    (fun off => (sample (unlerp px N + off.1 * (1 / (N:ℚ)))
      (unlerp py N + off.2 * (1 / (N:ℚ)))).2.2)
    (fun off => (hb _ _).2.2)
  unfold rasterPixel
  dsimp only
  rw [accumSamples_eq_sum]
  dsimp only
  rw [Nat.mod_eq_of_lt h1, Nat.mod_eq_of_lt h2, Nat.mod_eq_of_lt h3]
  rw [splitColor_makeColor h1 h2 h3]
  simp only [unlerp]

/-- Witness for C5: the five-sample pattern on a concrete color function
whose red channels sum to 7 over the five subsamples; the stored red
channel is 7 / 5 = 1 by truncating division, the green channel is
10 / 5 = 2 and the blue channel 255. -/
theorem C5_witness :
    aa_pattern_5x ≠ [] ∧
    (aa_pattern_none = [((0:ℚ), (0:ℚ))] ∧
     aa_pattern_5x = [(0, 0), (-(3:ℚ)/16, -(3:ℚ)/8), ((3:ℚ)/8, -(3:ℚ)/16),
       ((3:ℚ)/16, (3:ℚ)/8), (-(3:ℚ)/8, (3:ℚ)/16)] ∧
     splitColor (rasterPixel c5SampleFn 1 0 0 aa_pattern_5x) =
       ((aa_pattern_5x.map fun off =>
           (c5SampleFn ((((0:ℤ):ℚ) + 1 / 2) / ((1:ℤ):ℚ) + off.1 * (1 / ((1:ℤ):ℚ)))
             ((((0:ℤ):ℚ) + 1 / 2) / ((1:ℤ):ℚ) + off.2 * (1 / ((1:ℤ):ℚ)))).1).sum
           / aa_pattern_5x.length,
        (aa_pattern_5x.map fun off =>
           (c5SampleFn ((((0:ℤ):ℚ) + 1 / 2) / ((1:ℤ):ℚ) + off.1 * (1 / ((1:ℤ):ℚ)))
             ((((0:ℤ):ℚ) + 1 / 2) / ((1:ℤ):ℚ) + off.2 * (1 / ((1:ℤ):ℚ)))).2.1).sum
           / aa_pattern_5x.length,
        (aa_pattern_5x.map fun off =>
           (c5SampleFn ((((0:ℤ):ℚ) + 1 / 2) / ((1:ℤ):ℚ) + off.1 * (1 / ((1:ℤ):ℚ)))
             ((((0:ℤ):ℚ) + 1 / 2) / ((1:ℤ):ℚ) + off.2 * (1 / ((1:ℤ):ℚ)))).2.2).sum
           / aa_pattern_5x.length)) ∧
    splitColor (rasterPixel c5SampleFn 1 0 0 aa_pattern_5x) = (1, 2, 255) :=
  ⟨by decide,
   C5_rasterizer_truncating_average c5SampleFn 1 0 0 aa_pattern_5x (by decide)
     (by
       intro a b
       unfold c5SampleFn
       refine ⟨?_, by norm_num, by norm_num⟩
       split_ifs <;> norm_num),
   by
     have h : rasterPixel c5SampleFn 1 0 0 aa_pattern_5x = makeColor 1 2 255 := by
       unfold rasterPixel
       norm_num [accumSamples, aa_pattern_5x, c5SampleFn, unlerp]
     rw [h]
     exact splitColor_makeColor (by norm_num) (by norm_num) (by norm_num)⟩

/-! ### Claim C7: load failure handling (corrected) -/

/-- Counterexample to C7 as stated: with a decoder on which every load
fails, Cubemap construction still produces a cubemap, the face holds a
null pixel buffer, and a later texel read dereferences that null buffer
instead of any load error having aborted the run. -/
theorem C7_counterexample :
    (cubemapFromFiles failDecode 4 4 "cube" "png" 0).data = none ∧
    readTexel (cubemapFromFiles failDecode 4 4 "cube" "png") 0 0 0 =
      TexelResult.nullDeref := by
  constructor <;> rfl

/-- C7 amended: neither the Image constructor nor the Cubemap constructor
checks for a failed decode; a face whose file fails to decode is stored
with a null pixel buffer and dimensions left over from the decoder, and a
texel read on such a face dereferences the null buffer. No load error
exists and the run is not aborted. -/
theorem C7_no_load_check (decode : String → Option (ℤ × ℤ × (ℤ → ℕ)))
    (junkW junkH : ℤ) (base ext : String) (face : ℕ)
    (hface : face < 6)
    (hfail : decode (base ++ "_" ++ faceSuffix face ++ "." ++ ext) = none)
    (hw : 0 < junkW) (hh : 0 < junkH) :
    (cubemapFromFiles decode junkW junkH base ext face).data = none ∧
    readTexel (cubemapFromFiles decode junkW junkH base ext) face 0 0 =
      TexelResult.nullDeref := by
  have himg : cubemapFromFiles decode junkW junkH base ext face =
      ⟨junkW, junkH, none⟩ := by
    unfold cubemapFromFiles imageFromFile
    rw [hfail]
  constructor
  · rw [himg]
  · unfold readTexel
    rw [himg]
    rw [if_neg (not_not_intro hface), if_neg (not_not_intro hw),
      if_neg (not_not_intro hh)]

/-- Witness for C7 with the all-failing decoder on a second file set. -/
theorem C7_witness :
    0 < 6 ∧
    failDecode ("cube2" ++ "_" ++ faceSuffix 0 ++ "." ++ "png") = none ∧
    (0:ℤ) < 4 ∧
    ((cubemapFromFiles failDecode 4 4 "cube2" "png" 0).data = none ∧
     readTexel (cubemapFromFiles failDecode 4 4 "cube2" "png") 0 0 0 =
       TexelResult.nullDeref) :=
  ⟨by decide, rfl, by decide,
    C7_no_load_check failDecode 4 4 "cube2" "png" 0 (by decide) rfl
      (by decide) (by decide)⟩

/-! ### Claim C9: readTexel bounds checking (corrected) -/

/-- Counterexample to C9 as stated: the call readTexel at x = -1 violates
the claimed precondition 0 <= x, yet no assertion fires; the read silently
succeeds with the out-of-bounds flat index -1. -/
theorem C9_counterexample :
    ¬(0 ≤ (-1 : ℤ)) ∧ readTexel c9Faces 0 (-1) 0 = TexelResult.ok 0 := by
  constructor
  · decide
  · rfl

/-- C9 amended: readTexel checks, via assertions, only that the face index
is below six and that x and y are strictly below the face width and
height; the result is an assertion failure exactly when one of these upper
bound checks fails, and any call passing them, including calls with
negative coordinates, reads the buffer at flat index y * width + x
unchecked. -/
theorem C9_readTexel_guard (faces : ℕ → Image) (face : ℕ) (x y : ℤ)
    (buf : ℤ → ℕ) (hbuf : (faces face).data = some buf) :
    (readTexel faces face x y = TexelResult.assertFail ↔
      ¬(face < 6 ∧ x < (faces face).width ∧ y < (faces face).height)) ∧
    (face < 6 → x < (faces face).width → y < (faces face).height →
      readTexel faces face x y =
        TexelResult.ok (buf (y * (faces face).width + x))) := by
  constructor
  · by_cases h1 : face < 6
    · by_cases h2 : x < (faces face).width
      · by_cases h3 : y < (faces face).height
        · have hok : readTexel faces face x y =
              TexelResult.ok (buf (y * (faces face).width + x)) := by
            unfold readTexel
            rw [if_neg (not_not_intro h1), if_neg (not_not_intro h2),
              if_neg (not_not_intro h3), hbuf]
          rw [hok]
          exact iff_of_false (fun hc => TexelResult.noConfusion hc)
            (fun hc => hc ⟨h1, h2, h3⟩)
        · have ha : readTexel faces face x y = TexelResult.assertFail := by
            unfold readTexel
            rw [if_neg (not_not_intro h1), if_neg (not_not_intro h2), if_pos h3]
          rw [ha]
          exact iff_of_true rfl (fun hc => h3 hc.2.2)
      · have ha : readTexel faces face x y = TexelResult.assertFail := by
          unfold readTexel
          rw [if_neg (not_not_intro h1), if_pos h2]
        rw [ha]
        exact iff_of_true rfl (fun hc => h2 hc.2.1)
    · have ha : readTexel faces face x y = TexelResult.assertFail := by
        unfold readTexel
        rw [if_pos h1]
      rw [ha]
      exact iff_of_true rfl (fun hc => h1 hc.1)
  · intro h1 h2 h3
    unfold readTexel
    rw [if_neg (not_not_intro h1), if_neg (not_not_intro h2),
      if_neg (not_not_intro h3), hbuf]

/-- Witness for C9 on the four-by-four faces at the in-range coordinates
(1, 2). -/
theorem C9_witness :
    (c9Faces 0).data = some (fun _ => 0) ∧
    (readTexel c9Faces 0 1 2 = TexelResult.assertFail ↔
      ¬(0 < 6 ∧ (1:ℤ) < (c9Faces 0).width ∧ (2:ℤ) < (c9Faces 0).height)) ∧
    readTexel c9Faces 0 1 2 = TexelResult.ok 0 :=
  ⟨rfl,
   (C9_readTexel_guard c9Faces 0 1 2 (fun _ => 0) rfl).1,
   by
     have h := (C9_readTexel_guard c9Faces 0 1 2 (fun _ => 0) rfl).2
       (by decide) (by decide) (by decide)
     simpa using h⟩

/-! ### Claim C8: configuration validation (corrected) -/

/-- Counterexample to C8 as stated: the command line with output size 0
parses successfully into a configuration with size 0; a non-positive
output size is not detected, no message is produced and the process does
not exit with a non-zero status during option handling. -/
theorem C8_counterexample :
    parseArgs stoiM ["-size", "0", "p", "e"] =
      ParseOutcome.ok 1 0 none ["p", "e"] := by
  decide

/-- C8 amended: an unsupported AA sample count is rejected during parsing
with a message and exit code 1, but the output size is not validated: any
parsed integer, zero or negative included, is stored and parsing
continues, and a malformed size argument raises an uncaught exception
rather than a clean message. -/
theorem C8_option_validation :
    (∀ (stoi : String → Option ℤ) (arg : String) (rest : List String)
      (aa size : ℤ) (out : Option String) (pos : List String) (v : ℤ),
      stoi arg = some v → ¬(v = 1 ∨ v = 5) →
      parseLoop stoi ("-aa" :: arg :: rest) aa size out pos =
        ParseOutcome.exitFail) ∧
    (∀ (stoi : String → Option ℤ) (arg : String) (rest : List String)
      (aa size : ℤ) (out : Option String) (pos : List String),
      stoi arg = none →
      parseLoop stoi ("-size" :: arg :: rest) aa size out pos =
        ParseOutcome.crash) ∧
    (∀ (stoi : String → Option ℤ) (arg : String) (rest : List String)
      (aa size : ℤ) (out : Option String) (pos : List String) (v : ℤ),
      stoi arg = some v →
      parseLoop stoi ("-size" :: arg :: rest) aa size out pos =
        parseLoop stoi rest aa v out pos) := by
  have e1 : startsWithDash ("-aa") = true := by decide
  have e2 : startsWithDash ("-size") = true := by decide
  refine ⟨?_, ?_, ?_⟩
  · intro stoi arg rest aa size out pos v hv hne
    simp only [parseLoop, e1, if_true]
    simp only [hv]
    rw [if_neg hne, if_neg (by decide : ¬("-aa" = "-"))]
  · intro stoi arg rest aa size out pos hv
    simp only [parseLoop, e2, if_true]
    simp only [hv]
    rw [if_neg (by decide : ¬("-size" = "-")), if_neg (by decide : ¬("-size" = "-aa"))]
  · intro stoi arg rest aa size out pos v hv
    simp only [parseLoop, e2, if_true]
    simp only [hv]
    rw [if_neg (by decide : ¬("-size" = "-")), if_neg (by decide : ¬("-size" = "-aa"))]

/-- Witness for C8: the AA count 7 is rejected, a malformed size argument
crashes, and the size argument -3 is stored without validation. -/
theorem C8_witness :
    (stoiM ("7") = some 7 ∧ ¬((7:ℤ) = 1 ∨ (7:ℤ) = 5) ∧
      parseLoop stoiM ["-aa", "7"] 1 1024 none [] = ParseOutcome.exitFail) ∧
    (stoiM ("zzz") = none ∧
      parseLoop stoiM ["-size", "zzz"] 1 1024 none [] = ParseOutcome.crash) ∧
    (stoiM ("-3") = some (-3) ∧
      parseLoop stoiM ["-size", "-3"] 1 1024 none [] =
        parseLoop stoiM [] 1 (-3) none []) :=
  ⟨⟨by decide, by decide,
    C8_option_validation.1 stoiM "7" [] 1 1024 none [] 7 (by decide) (by decide)⟩,
   ⟨by decide,
    C8_option_validation.2.1 stoiM "zzz" [] 1 1024 none [] (by decide)⟩,
   ⟨by decide,
    C8_option_validation.2.2 stoiM "-3" [] 1 1024 none [] (-3) (by decide)⟩⟩

end SpheremapTool
